import Mathlib

/-!
Verification of the EEZYbot 4-servo arm controller: a shallow embedding
of `src/maestro.py` and `src/app_prompt_multi_ai_voice_4_servo.py`.

Modelling conventions:
* Python integers become `Int` (or `Nat` where the source value is a
  non-negative byte/channel quantity).
* The single floating-point expression of the program,
  `int(start + (end - start) * (s / INTERPOLATION_STEPS))` in
  `move_to_position`, is modelled over exact rationals: the real-valued
  division is carried out in `ℚ` and Python's `int()` (truncation toward
  zero) is `pyint` below.  For the pulse-width magnitudes used by this
  program the exact-rational value and the IEEE double value truncate to
  the same integer.
* Side effects (serial writes, GUI slider updates, mutation of the
  global `current_position` list) are recorded as an explicit event
  trace; `time.sleep` delays carry no data and are not modelled.
* A raw plan step is a list of token-parse results (`Option Int`): `some v`
  for a token that Python's `int()` parses to `v`, `none` for an
  unparseable token.
-/

namespace RobotArm

/-- Constant `servo_channels = [0, 1, 2, 3]` from the application module. -/
def servo_channels : List Nat := [0, 1, 2, 3]

/-- Constant `MIN_PULSE = [4000, 4000, 5000, 4000]`. -/
def MIN_PULSE : List Int := [4000, 4000, 5000, 4000]

/-- Constant `MAX_PULSE = [8000, 8000, 5000, 6000]`. -/
def MAX_PULSE : List Int := [8000, 8000, 5000, 6000]

/-- Constant `NEUTRAL = [6000, 6000, 5000, 5000]`. -/
def NEUTRAL : List Int := [6000, 6000, 5000, 5000]

/-- Constant `INTERPOLATION_STEPS = 20`. -/
def INTERPOLATION_STEPS : Nat := 20

/-- From `maestro.py`, `MaestroController.set_target`: builds the 4-byte
command `bytearray([0x84, channel, target & 0x7F, (target >> 7) & 0x7F])`.
`bytearray` raises for a byte outside 0..255, which only the raw
`channel` byte can violate (the two masked bytes are ≤ 0x7F and the
opcode is constant), so that case is `none`. -/
def set_target (channel target : Nat) : Option (List Nat) :=
  if channel < 256 then
    some [0x84, channel, target &&& 0x7F, (target >>> 7) &&& 0x7F]
  else
    none

/-- Python's `int()` applied to an exact rational: truncation toward
zero.  On the reduced fraction `num / den` (with `den > 0`) this is
T-division of the numerator by the denominator. -/
def pyint (q : ℚ) : Int :=
  q.num.tdiv (q.den : Int)

/-- One interpolation frame of `move_to_position`:
`int(start + (end - start) * (s / INTERPOLATION_STEPS))` with the
division taken exactly (see the module comment). -/
def frameValue (start end_ : Int) (s : Nat) : Int :=
  pyint ((start : ℚ) + ((end_ : ℚ) - (start : ℚ)) * ((s : ℚ) / (INTERPOLATION_STEPS : ℚ)))

/-- The frame list of `move_to_position` for one channel:
`[int(start + (end - start) * (s / INTERPOLATION_STEPS)) for s in range(1, INTERPOLATION_STEPS + 1)]`. -/
def frames (start end_ : Int) : List Int :=
  (List.range INTERPOLATION_STEPS).map (fun s => frameValue start end_ (s + 1))

/-- An observable effect of the application: a hardware write
(`servo.set_target`), a GUI slider update (`sliders[ch].set`), or a
mutation of the global `current_position` list. -/
inductive Ev where
  | hw (ch : Nat) (v : Int)
  | slider (ch : Nat) (v : Int)
  | store (ch : Nat) (v : Int)
deriving DecidableEq, Repr

/-- Function `update_servo(channel, value)`: hardware write followed by the GUI
slider update.  (`int(value)` is the identity here because every caller
passes an integer.) -/
def update_servo (channel : Nat) (value : Int) : List Ev :=
  [Ev.hw channel value, Ev.slider channel value]

/-- The body of `move_to_position`'s `for i in range(len(servo_channels))`
loop for one channel `i`, acting on the pair (current_position, emitted
events).  Channel 2 is forced to 5000 with a single direct write; any
other channel emits its interpolation frames and then sets
`current_position[i] = end`. -/
def moveChannel (targets : List Int) (st : List Int × List Ev) (i : Nat) :
    List Int × List Ev :=
  if i = 2 then
    (st.1.set 2 5000, st.2 ++ update_servo 2 5000 ++ [Ev.store 2 5000])
  else
    (st.1.set i (targets.getD i 0),
     st.2
       ++ ((frames (st.1.getD i 0) (targets.getD i 0)).map (update_servo i)).flatten
       ++ [Ev.store i (targets.getD i 0)])

/-- Function `move_to_position(targets)`: processes the channels sequentially in
the order of `servo_channels`, starting from the global
`current_position` list `current`.  Returns the final
`current_position` and the ordered event trace. -/
def move_to_position (targets current : List Int) : List Int × List Ev :=
  servo_channels.foldl (moveChannel targets) (current, [])

/-- The clamp of `handle_prompt`:
`pulse = max(MIN_PULSE[ch], min(MAX_PULSE[ch], pulse))`. -/
def clamp (mn mx x : Int) : Int :=
  max mn (min mx x)

/-- The `for ch, pulse in enumerate(values)` clamping loop of
`handle_prompt`, carrying the running index `ch`: channel 2 is replaced
by 5000, every other value is clamped to its channel's bounds. -/
def clampFrom (ch : Nat) : List Int → List Int
  | [] => []
  | pulse :: rest =>
    (if ch = 2 then 5000 else clamp (MIN_PULSE.getD ch 0) (MAX_PULSE.getD ch 0) pulse)
      :: clampFrom (ch + 1) rest

/-- The full clamped vector built by `handle_prompt` from one parsed step. -/
def clampStep (values : List Int) : List Int :=
  clampFrom 0 values

/-- The comprehension `[int(val.strip()) for val in step.strip().split(",")]`:
it parses tokens left to right and raises `ValueError` at the first
unparseable token, producing no value list at all in that case. -/
def parseStep : List (Option Int) → Option (List Int)
  | [] => some []
  | none :: _ => none
  | some v :: rest => (parseStep rest).map (fun vs => v :: vs)

/-- The `for step in steps` loop of `handle_prompt`, starting from
position `pos`.  A step that parses but has the wrong arity is skipped
(`continue`); a step with an unparseable token raises `ValueError`,
which is caught only by the `except` around the whole loop, so the
remaining steps are abandoned.  Returns the final `current_position` and
the concatenated event trace. -/
def runPlan (pos : List Int) : List (List (Option Int)) → List Int × List Ev
  | [] => (pos, [])
  | step :: rest =>
    match parseStep step with
    | none => (pos, [])
    | some values =>
      if values.length = servo_channels.length then
        let r := move_to_position (clampStep values) pos
        let r2 := runPlan r.1 rest
        (r2.1, r.2 ++ r2.2)
      else
        runPlan pos rest

/-- The hardware writes (channel, pulse) contained in an event trace, in
order. -/
def hwWrites (evs : List Ev) : List (Nat × Int) :=
  evs.filterMap (fun e =>
    match e with
    | Ev.hw c v => some (c, v)
    | _ => none)

/-- The `current_position` mutations contained in an event trace, in
order. -/
def storeWrites (evs : List Ev) : List (Nat × Int) :=
  evs.filterMap (fun e =>
    match e with
    | Ev.store c v => some (c, v)
    | _ => none)

/-- The state of the `current_position` list after replaying the store
mutations of an event trace over the initial state. -/
def storeAfter (init : List Int) (evs : List Ev) : List Int :=
  evs.foldl (fun st e =>
    match e with
    | Ev.store c v => st.set c v
    | _ => st) init

/-! ## Arithmetic helper lemmas -/

lemma pyint_intCast (n : Int) : pyint (n : ℚ) = n := by
  simp [pyint]

lemma pyint_nonneg_eq_floor (q : ℚ) (h : 0 ≤ q) : pyint q = ⌊q⌋ := by
  rw [pyint, Int.tdiv_eq_ediv (Rat.num_nonneg.mpr h) (Int.natCast_nonneg q.den),
    Rat.floor_def]

lemma pyint_neg (q : ℚ) : pyint (-q) = -pyint q := by
  simp [pyint, Int.neg_tdiv]

lemma pyint_intCast_div (a : Int) (b : Nat) (hb : 0 < b) :
    pyint ((a : ℚ) / ((b : Nat) : ℚ)) = a.tdiv (b : Int) := by
  rcases le_or_lt 0 a with ha | ha
  · have hq : (0 : ℚ) ≤ (a : ℚ) / ((b : Nat) : ℚ) := by positivity
    rw [pyint_nonneg_eq_floor _ hq, Rat.floor_intCast_div_natCast,
      Int.tdiv_eq_ediv ha (Int.natCast_nonneg b)]
  · have h1 : (a : ℚ) / ((b : Nat) : ℚ) = -(((-a : Int) : ℚ) / ((b : Nat) : ℚ)) := by
      push_cast
      ring
    have hna : (0 : ℚ) ≤ ((-a : Int) : ℚ) := by
      exact_mod_cast (by omega : (0 : Int) ≤ -a)
    have hq : (0 : ℚ) ≤ ((-a : Int) : ℚ) / ((b : Nat) : ℚ) := by positivity
    rw [h1, pyint_neg, pyint_nonneg_eq_floor _ hq, Rat.floor_intCast_div_natCast,
      ← Int.tdiv_eq_ediv (by omega) (Int.natCast_nonneg b), Int.neg_tdiv, neg_neg]

lemma frameValue_eq_tdiv (start end_ : Int) (s : Nat) :
    frameValue start end_ s = (start * 20 + (end_ - start) * (s : Int)).tdiv 20 := by
  have key : (start : ℚ) + ((end_ : ℚ) - (start : ℚ)) * ((s : ℚ) / (((20 : Nat) : Nat) : ℚ))
      = ((start * 20 + (end_ - start) * (s : Int) : Int) : ℚ) / (((20 : Nat) : Nat) : ℚ) := by
    push_cast
    ring
  have h := pyint_intCast_div (start * 20 + (end_ - start) * (s : Int)) 20 (by norm_num)
  rw [frameValue]
  simp only [INTERPOLATION_STEPS]
  rw [key, h]
  norm_num

lemma tdiv_le_tdiv_of_le {a b : Int} (c : Int) (hc : 0 < c) (h : a ≤ b) :
    a.tdiv c ≤ b.tdiv c := by
  rcases le_or_lt 0 a with ha | ha
  · rw [Int.tdiv_eq_ediv ha hc.le, Int.tdiv_eq_ediv (le_trans ha h) hc.le]
    exact Int.ediv_le_ediv hc h
  · rcases le_or_lt 0 b with hb | hb
    · have h1 : (0 : Int) ≤ (-a).tdiv c := Int.tdiv_nonneg (by omega) hc.le
      have h2 : (-a).tdiv c = -(a.tdiv c) := Int.neg_tdiv a c
      have h3 : (0 : Int) ≤ b.tdiv c := Int.tdiv_nonneg hb hc.le
      omega
    · have hmono := Int.ediv_le_ediv hc (by omega : -b ≤ -a)
      rw [← Int.tdiv_eq_ediv (by omega) hc.le, ← Int.tdiv_eq_ediv (by omega) hc.le] at hmono
      rw [Int.neg_tdiv, Int.neg_tdiv] at hmono
      omega

lemma frameValue_self (start : Int) (s : Nat) : frameValue start start s = start := by
  rw [frameValue_eq_tdiv]
  have : start * 20 + (start - start) * (s : Int) = start * 20 := by ring
  rw [this, Int.mul_tdiv_cancel start (by norm_num)]

lemma frameValue_le_frameValue (start end_ : Int) (h : start ≤ end_) (s t : Nat)
    (hst : s ≤ t) : frameValue start end_ s ≤ frameValue start end_ t := by
  rw [frameValue_eq_tdiv, frameValue_eq_tdiv]
  apply tdiv_le_tdiv_of_le 20 (by norm_num)
  have hs : (s : Int) ≤ (t : Int) := by exact_mod_cast hst
  nlinarith

lemma frameValue_anti (start end_ : Int) (h : end_ ≤ start) (s t : Nat)
    (hst : s ≤ t) : frameValue start end_ t ≤ frameValue start end_ s := by
  rw [frameValue_eq_tdiv, frameValue_eq_tdiv]
  apply tdiv_le_tdiv_of_le 20 (by norm_num)
  have hs : (s : Int) ≤ (t : Int) := by exact_mod_cast hst
  nlinarith

lemma frameValue_zero (start end_ : Int) : frameValue start end_ 0 = start := by
  rw [frameValue_eq_tdiv]
  have e1 : start * 20 + (end_ - start) * ((0 : Nat) : Int) = start * 20 := by
    push_cast
    ring
  rw [e1, Int.mul_tdiv_cancel start (by norm_num)]

lemma frameValue_last (start end_ : Int) : frameValue start end_ 20 = end_ := by
  rw [frameValue_eq_tdiv]
  have e1 : start * 20 + (end_ - start) * ((20 : Nat) : Int) = end_ * 20 := by
    push_cast
    ring
  rw [e1, Int.mul_tdiv_cancel end_ (by norm_num)]

lemma frameValue_mem_Icc (start end_ : Int) (s : Nat) (hs : s ≤ 20) :
    min start end_ ≤ frameValue start end_ s ∧ frameValue start end_ s ≤ max start end_ := by
  rcases le_total start end_ with h | h
  · have h0 : frameValue start end_ 0 = start := frameValue_zero start end_
    have hS : frameValue start end_ 20 = end_ := frameValue_last start end_
    constructor
    · rw [min_eq_left h]
      calc start = frameValue start end_ 0 := h0.symm
        _ ≤ frameValue start end_ s := frameValue_le_frameValue start end_ h 0 s (Nat.zero_le s)
    · rw [max_eq_right h]
      calc frameValue start end_ s ≤ frameValue start end_ 20 :=
            frameValue_le_frameValue start end_ h s 20 hs
        _ = end_ := hS
  · have h0 : frameValue start end_ 0 = start := frameValue_zero start end_
    have hS : frameValue start end_ 20 = end_ := frameValue_last start end_
    constructor
    · rw [min_eq_right h]
      calc end_ = frameValue start end_ 20 := hS.symm
        _ ≤ frameValue start end_ s := frameValue_anti start end_ h s 20 hs
    · rw [max_eq_left h]
      calc frameValue start end_ s ≤ frameValue start end_ 0 :=
            frameValue_anti start end_ h 0 s (Nat.zero_le s)
        _ = start := h0

lemma frames_getD (start end_ : Int) (k : Nat) (hk : k < 20) :
    (frames start end_).getD k 0 = frameValue start end_ (k + 1) := by
  simp [frames, INTERPOLATION_STEPS, List.getElem?_map, List.getElem?_range hk]

lemma frames_length (start end_ : Int) : (frames start end_).length = INTERPOLATION_STEPS := by
  simp [frames]

lemma frames_eval (start end_ : Int) :
    frames start end_
      = (List.range 20).map
          (fun s => (start * 20 + (end_ - start) * ((s + 1 : Nat) : Int)).tdiv 20) := by
  simp only [frames, INTERPOLATION_STEPS, frameValue_eq_tdiv]

lemma frames_self (start : Int) : frames start start = List.replicate 20 start := by
  rw [frames, List.eq_replicate_iff]
  refine ⟨by simp [INTERPOLATION_STEPS], ?_⟩
  intro v hv
  rw [List.mem_map] at hv
  obtain ⟨s, _, rfl⟩ := hv
  exact frameValue_self start (s + 1)

/-! ## Claim theorems: interpolation and clamping arithmetic -/

/-- Claim C5: clamping is idempotent — for every integer `x` and every
channel's bounds `(mn, mx)`, `clamp mn mx (clamp mn mx x) = clamp mn mx x`,
where `clamp mn mx x = max mn (min mx x)` as in `handle_prompt`. -/
theorem c5_clamp_idempotent (mn mx x : Int) :
    clamp mn mx (clamp mn mx x) = clamp mn mx x := by
  rcases le_total mn mx with h | h <;> rcases le_total mx x with h2 | h2 <;>
    rcases le_total mn x with h3 | h3 <;>
      simp [clamp, max_def, min_def] <;> split_ifs <;> omega

/-- Claim C6: for `start < end` the interpolation frame sequence is
non-decreasing, for `start > end` it is non-increasing, and in every case
it has exactly `INTERPOLATION_STEPS = 20` frames. -/
theorem c6_frames_monotone (start end_ : Int) :
    (start < end_ → (frames start end_).Chain' (· ≤ ·))
    ∧ (end_ < start → (frames start end_).Chain' (· ≥ ·))
    ∧ (frames start end_).length = INTERPOLATION_STEPS
    ∧ INTERPOLATION_STEPS = 20 := by
  have hrange : (List.range 20) = List.range (Nat.succ 19) := by norm_num
  refine ⟨fun h => ?_, fun h => ?_, frames_length start end_, rfl⟩
  · rw [frames, INTERPOLATION_STEPS, List.chain'_map, hrange]
    exact (List.chain'_range_succ _ 19).mpr
      (fun m _ => frameValue_le_frameValue start end_ h.le (m + 1) (m + 1 + 1) (by omega))
  · rw [frames, INTERPOLATION_STEPS, List.chain'_map, hrange]
    exact (List.chain'_range_succ _ 19).mpr
      (fun m _ => frameValue_anti start end_ h.le (m + 1) (m + 1 + 1) (by omega))

/-- Witness for C6 at a concrete increasing and a concrete decreasing
motion. -/
theorem c6_frames_monotone_witness :
    (frames 6000 8000).Chain' (· ≤ ·) ∧ (frames 8000 6000).Chain' (· ≥ ·) :=
  ⟨(c6_frames_monotone 6000 8000).1 (by norm_num),
   (c6_frames_monotone 8000 6000).2.1 (by norm_num)⟩

/-- Claim C10: every interpolation frame lies between `min start end` and
`max start end`; consequently, when the starting position and the target
both lie within channel bounds `[mn, mx]`, so does every frame written
during that channel's interpolation. -/
theorem c10_frames_within_bounds :
    (∀ start end_ : Int, ∀ v ∈ frames start end_,
        min start end_ ≤ v ∧ v ≤ max start end_)
    ∧ (∀ mn mx start end_ : Int, mn ≤ start → start ≤ mx → mn ≤ end_ → end_ ≤ mx →
        ∀ v ∈ frames start end_, mn ≤ v ∧ v ≤ mx) := by
  have base : ∀ start end_ : Int, ∀ v ∈ frames start end_,
      min start end_ ≤ v ∧ v ≤ max start end_ := by
    intro start end_ v hv
    rw [frames, List.mem_map] at hv
    obtain ⟨s, hs, rfl⟩ := hv
    rw [List.mem_range, INTERPOLATION_STEPS] at hs
    exact frameValue_mem_Icc start end_ (s + 1) (by omega)
  refine ⟨base, fun mn mx start end_ h1 h2 h3 h4 v hv => ?_⟩
  obtain ⟨hl, hr⟩ := base start end_ v hv
  exact ⟨le_trans (le_min h1 h3) hl, le_trans hr (max_le h2 h4)⟩

/-- Witness for C10: the first frame of the motion 6000 → 8000 is 6100,
inside both `[min, max]` and the channel-0 bounds `[4000, 8000]`. -/
theorem c10_frames_within_bounds_witness :
    (min (6000 : Int) 8000 ≤ 6100 ∧ (6100 : Int) ≤ max 6000 8000)
    ∧ ((4000 : Int) ≤ 6100 ∧ (6100 : Int) ≤ 8000) := by
  have hv : (6100 : Int) ∈ frames 6000 8000 := by
    rw [frames_eval]
    decide
  exact ⟨c10_frames_within_bounds.1 6000 8000 6100 hv,
    c10_frames_within_bounds.2 4000 8000 6000 8000 (by norm_num) (by norm_num)
      (by norm_num) (by norm_num) 6100 hv⟩

/-- Counterexample to claim C2: moving channel 0 from 6000 to 6030, the
first frame (`s = 1`) computed by `move_to_position` is
`int(6000 + 30 * (1/20)) = int(6001.5) = 6001`, while the claimed
`start + round((end-start) * s/S)` is `6000 + round(1.5) = 6002`. -/
theorem c2_counterexample :
    (frames 6000 6030).getD 0 0 = 6001
    ∧ (6000 : Int) + round (((6030 : ℚ) - 6000) * ((1 : ℚ) / (INTERPOLATION_STEPS : ℚ))) = 6002
    ∧ (frames 6000 6030).getD 0 0
        ≠ 6000 + round (((6030 : ℚ) - 6000) * ((1 : ℚ) / (INTERPOLATION_STEPS : ℚ))) := by
  refine ⟨?_, ?_, ?_⟩
  · rw [frames_eval]
    decide
  · norm_num [INTERPOLATION_STEPS, round_eq]
  · rw [frames_eval]
    norm_num [INTERPOLATION_STEPS, round_eq]
    decide

/-- Claim C2 (amended): for `s = 1..S`, the `s`-th intermediate frame is
`start + (end-start)*s/S` truncated toward zero by Python's `int()` — for
the non-negative values arising here, the floor — not rounded to the
nearest integer. -/
theorem c2_frames_truncate (start end_ : Int) (s : Nat)
    (h1 : 1 ≤ s) (h2 : s ≤ INTERPOLATION_STEPS)
    (h3 : 0 ≤ (start : ℚ) + ((end_ : ℚ) - (start : ℚ)) * ((s : ℚ) / (INTERPOLATION_STEPS : ℚ))) :
    (frames start end_).getD (s - 1) 0
      = ⌊(start : ℚ) + ((end_ : ℚ) - (start : ℚ)) * ((s : ℚ) / (INTERPOLATION_STEPS : ℚ))⌋ := by
  rw [INTERPOLATION_STEPS] at h2
  rw [frames_getD start end_ (s - 1) (by omega)]
  have hs1 : s - 1 + 1 = s := by omega
  rw [hs1, frameValue]
  exact pyint_nonneg_eq_floor _ h3

/-- Witness for the amended C2 at `start = 6000`, `end = 6030`, `s = 1`:
the first frame is the floor of 6001.5. -/
theorem c2_frames_truncate_witness :
    (frames 6000 6030).getD 0 0
      = ⌊(6000 : ℚ) + ((6030 : ℚ) - 6000) * ((1 : ℚ) / (INTERPOLATION_STEPS : ℚ))⌋ := by
  have h := c2_frames_truncate 6000 6030 1 (by norm_num)
    (by norm_num [INTERPOLATION_STEPS]) (by norm_num [INTERPOLATION_STEPS])
  simpa using h

/-- Claim C7: `set_target` emits exactly the 4-byte command
`[0x84, channel, target & 0x7F, (target >> 7) & 0x7F]` (for a channel
byte in range), so the bytes depend only on `target mod 16384` and the
high bits of larger targets are lost silently. -/
theorem c7_set_target_wire (channel target : Nat) (h : channel < 256) :
    set_target channel target
      = some [0x84, channel, target % 128, target / 128 % 128]
    ∧ set_target channel target = set_target channel (target % 16384) := by
  have hand : ∀ t : Nat, t &&& 127 = t % 128 := by
    intro t
    have h7 := Nat.and_pow_two_sub_one_eq_mod t 7
    norm_num at h7
    exact h7
  have hshift : ∀ t : Nat, t >>> 7 = t / 128 := by
    intro t
    have h7 := Nat.shiftRight_eq_div_pow t 7
    norm_num at h7
    exact h7
  have hbytes : ∀ t : Nat, (t &&& 0x7F) = t % 128 ∧ ((t >>> 7) &&& 0x7F) = t / 128 % 128 := by
    intro t
    refine ⟨hand t, ?_⟩
    rw [hshift t, hand (t / 128)]
  constructor
  · rw [set_target, if_pos h, (hbytes target).1, (hbytes target).2]
  · rw [set_target, if_pos h, set_target, if_pos h,
      (hbytes target).1, (hbytes target).2,
      (hbytes (target % 16384)).1, (hbytes (target % 16384)).2]
    have e1 : target % 16384 % 128 = target % 128 := by omega
    have e2 : target % 16384 / 128 % 128 = target / 128 % 128 := by omega
    rw [e1, e2]

/-- Witness for C7: channel 0, target 20000 — the emitted bytes are
`[0x84, 0, 32, 28]`, identical to those for `20000 % 16384 = 3616`. -/
theorem c7_set_target_wire_witness :
    set_target 0 20000 = some [132, 0, 32, 28]
    ∧ set_target 0 20000 = set_target 0 3616 := by
  have h := c7_set_target_wire 0 20000 (by norm_num)
  exact ⟨h.1.trans (by norm_num), h.2.trans (by norm_num [set_target])⟩

/-! ## Helper lemmas for the move-level claims -/

lemma move_to_position_eval (t0 t1 t2 t3 c0 c1 c2 c3 : Int) :
    move_to_position [t0, t1, t2, t3] [c0, c1, c2, c3] =
      ([t0, t1, 5000, t3],
        ((frames c0 t0).map (update_servo 0)).flatten
          ++ [Ev.store 0 t0]
          ++ ((frames c1 t1).map (update_servo 1)).flatten
          ++ [Ev.store 1 t1]
          ++ update_servo 2 5000
          ++ [Ev.store 2 5000]
          ++ ((frames c3 t3).map (update_servo 3)).flatten
          ++ [Ev.store 3 t3]) := by
  simp [move_to_position, servo_channels, moveChannel]

lemma hwWrites_append (a b : List Ev) :
    hwWrites (a ++ b) = hwWrites a ++ hwWrites b := by
  simp [hwWrites]

lemma storeWrites_append (a b : List Ev) :
    storeWrites (a ++ b) = storeWrites a ++ storeWrites b := by
  simp [storeWrites]

lemma hwWrites_frames (i : Nat) (l : List Int) :
    hwWrites ((l.map (update_servo i)).flatten) = l.map (fun v => (i, v)) := by
  induction l with
  | nil => rfl
  | cons x xs ih =>
    simp only [List.map_cons, List.flatten_cons, hwWrites_append, ih]
    rfl

lemma storeWrites_frames (i : Nat) (l : List Int) :
    storeWrites ((l.map (update_servo i)).flatten) = [] := by
  induction l with
  | nil => rfl
  | cons x xs ih =>
    simp only [List.map_cons, List.flatten_cons, storeWrites_append, ih]
    rfl

lemma filter_channel_ne (i j : Nat) (h : (i == j) = false) (l : List Int) :
    (l.map (fun v => (i, v))).filter (fun w => w.1 == j) = [] := by
  induction l with
  | nil => rfl
  | cons x xs ih => simpa [List.filter, h] using ih

lemma filter_channel_eq (i : Nat) (l : List Int) :
    (l.map (fun v => (i, v))).filter (fun w => w.1 == i) = l.map (fun v => (i, v)) := by
  induction l with
  | nil => rfl
  | cons x xs ih =>
    rw [List.map_cons, List.filter_cons]
    simp only [beq_self_eq_true, if_true, ih]

lemma clampStep_eval (t0 t1 t2 t3 : Int) :
    clampStep [t0, t1, t2, t3]
      = [clamp 4000 8000 t0, clamp 4000 8000 t1, 5000, clamp 4000 6000 t3] := by
  simp [clampStep, clampFrom, MIN_PULSE, MAX_PULSE]

/-! ## Claim theorems: the motion step -/

/-- Claim C1: after `move_to_position` on the clamped vector of a
validated step completes, the stored current position of every channel
`ch` equals `clamp(t[ch], bounds(ch))` exactly (channel 2's bounds are
`[5000, 5000]`, so its clamp is the locked value); and the raw target
vector `[9000, -100, 5000, 5000]` clamps to `[8000, 4000, 5000, 5000]`
before any interpolation begins. -/
theorem c1_step_final_position (t0 t1 t2 t3 c0 c1 c2 c3 : Int) (ch : Nat) (hch : ch < 4) :
    (move_to_position (clampStep [t0, t1, t2, t3]) [c0, c1, c2, c3]).1.getD ch 0
      = clamp (MIN_PULSE.getD ch 0) (MAX_PULSE.getD ch 0) ([t0, t1, t2, t3].getD ch 0)
    ∧ clampStep [9000, -100, 5000, 5000] = [8000, 4000, 5000, 5000] := by
  refine ⟨?_, by decide⟩
  rw [clampStep_eval, move_to_position_eval]
  interval_cases ch
  · simp [MIN_PULSE, MAX_PULSE]
  · simp [MIN_PULSE, MAX_PULSE]
  · simp only [MIN_PULSE, MAX_PULSE, List.getD_cons_succ, List.getD_cons_zero]
    rw [clamp, max_eq_left (min_le_left _ _)]
  · simp [MIN_PULSE, MAX_PULSE]

/-- Witness for C1: the out-of-range step `[9000, -100, 5000, 5000]`
from the neutral position leaves channel 0 at the clamped value 8000. -/
theorem c1_step_final_position_witness :
    (move_to_position (clampStep [9000, -100, 5000, 5000]) [6000, 6000, 5000, 5000]).1.getD 0 0
      = clamp (MIN_PULSE.getD 0 0) (MAX_PULSE.getD 0 0)
          ([(9000 : Int), -100, 5000, 5000].getD 0 0)
    ∧ clamp (MIN_PULSE.getD 0 0) (MAX_PULSE.getD 0 0)
          ([(9000 : Int), -100, 5000, 5000].getD 0 0) = 8000 :=
  ⟨(c1_step_final_position 9000 (-100) 5000 5000 6000 6000 5000 5000 0 (by norm_num)).1,
   by decide⟩

/-- Claim C4: for the locked channel 2 and every requested target, the
post-motion stored value is 5000 and the motion emits exactly one direct
hardware write `(2, 5000)` — no interpolation frames for that channel. -/
theorem c4_locked_channel (t0 t1 t2 t3 c0 c1 c2 c3 : Int) :
    (move_to_position [t0, t1, t2, t3] [c0, c1, c2, c3]).1.getD 2 0 = 5000
    ∧ (hwWrites (move_to_position [t0, t1, t2, t3] [c0, c1, c2, c3]).2).filter
        (fun w => w.1 == 2) = [(2, 5000)] := by
  rw [move_to_position_eval]
  refine ⟨by simp, ?_⟩
  simp only [hwWrites_append, hwWrites_frames, List.filter_append,
    filter_channel_ne 0 2 (by decide), filter_channel_ne 1 2 (by decide),
    filter_channel_ne 3 2 (by decide)]
  rfl

/-- Claim C9: for an unlocked channel whose target equals its current
stored position, `move_to_position` still emits exactly 20 hardware
writes for that channel, every one equal to the current value, and the
stored position is unchanged afterwards. -/
theorem c9_no_short_circuit (i : Nat) (t0 t1 t2 t3 c0 c1 c2 c3 : Int)
    (hi : i < 4) (hne : i ≠ 2)
    (heq : [t0, t1, t2, t3].getD i 0 = [c0, c1, c2, c3].getD i 0) :
    (hwWrites (move_to_position [t0, t1, t2, t3] [c0, c1, c2, c3]).2).filter
        (fun w => w.1 == i) = List.replicate 20 (i, [c0, c1, c2, c3].getD i 0)
    ∧ (move_to_position [t0, t1, t2, t3] [c0, c1, c2, c3]).1.getD i 0
        = [c0, c1, c2, c3].getD i 0 := by
  rw [move_to_position_eval]
  interval_cases i
  · simp only [List.getD_cons_zero] at heq
    subst heq
    refine ⟨?_, by simp⟩
    simp only [hwWrites_append, hwWrites_frames, List.filter_append,
      filter_channel_ne 1 0 (by decide), filter_channel_ne 2 0 (by decide),
      filter_channel_ne 3 0 (by decide), filter_channel_eq 0, frames_self,
      List.map_replicate]
    simp [hwWrites, update_servo]
  · simp only [List.getD_cons_succ, List.getD_cons_zero] at heq
    subst heq
    refine ⟨?_, by simp⟩
    simp only [hwWrites_append, hwWrites_frames, List.filter_append,
      filter_channel_ne 0 1 (by decide), filter_channel_ne 2 1 (by decide),
      filter_channel_ne 3 1 (by decide), filter_channel_eq 1, frames_self,
      List.map_replicate]
    simp [hwWrites, update_servo]
  · exact absurd rfl hne
  · simp only [List.getD_cons_succ, List.getD_cons_zero] at heq
    subst heq
    refine ⟨?_, by simp⟩
    simp only [hwWrites_append, hwWrites_frames, List.filter_append,
      filter_channel_ne 0 3 (by decide), filter_channel_ne 1 3 (by decide),
      filter_channel_ne 2 3 (by decide), filter_channel_eq 3, frames_self,
      List.map_replicate]
    simp [hwWrites, update_servo]

/-- Witness for C9: moving channel 0 from 6000 to 6000 emits twenty
writes of 6000 and leaves the stored position at 6000. -/
theorem c9_no_short_circuit_witness :
    (hwWrites (move_to_position [6000, 6000, 5000, 5000] [6000, 6000, 5000, 5000]).2).filter
        (fun w => w.1 == 0) = List.replicate 20 ((0 : Nat), (6000 : Int))
    ∧ (move_to_position [6000, 6000, 5000, 5000] [6000, 6000, 5000, 5000]).1.getD 0 0
        = 6000 := by
  have h := c9_no_short_circuit 0 6000 6000 5000 5000 6000 6000 5000 5000
    (by norm_num) (by norm_num) rfl
  simpa using h

/-- Counterexample to claim C8: in the motion from the neutral position
to `[8000, 6000, 5000, 5000]`, the first frame writes 6100 to the
hardware (and the GUI slider), but after those two events the Position
Store (`current_position`) still holds the old value 6000, not the
last-commanded 6100 — the store does not advance frame by frame. -/
theorem c8_counterexample :
    (move_to_position [8000, 6000, 5000, 5000] NEUTRAL).2.take 2
        = [Ev.hw 0 6100, Ev.slider 0 6100]
    ∧ storeAfter NEUTRAL ((move_to_position [8000, 6000, 5000, 5000] NEUTRAL).2.take 2)
        = NEUTRAL
    ∧ NEUTRAL.getD 0 0 = 6000
    ∧ (6000 : Int) ≠ 6100 := by
  have hN : NEUTRAL = [6000, 6000, 5000, 5000] := rfl
  rw [hN, move_to_position_eval]
  simp only [frames_eval]
  refine ⟨by decide, ?_, by decide, by decide⟩
  decide

/-- Claim C8 (amended): during `move_to_position` each intermediate
frame is written to the hardware and the GUI slider, but the Position
Store (`current_position`) is mutated exactly once per channel, after
that channel's final frame, directly to the exact target value. -/
theorem c8_store_once_per_channel (t0 t1 t2 t3 c0 c1 c2 c3 : Int) :
    storeWrites (move_to_position [t0, t1, t2, t3] [c0, c1, c2, c3]).2
      = [(0, t0), (1, t1), (2, 5000), (3, t3)]
    ∧ (move_to_position [t0, t1, t2, t3] [c0, c1, c2, c3]).1 = [t0, t1, 5000, t3] := by
  rw [move_to_position_eval]
  refine ⟨?_, rfl⟩
  simp only [storeWrites_append, storeWrites_frames]
  rfl

/-- Counterexample to claim C3: a plan whose first step has an
unparseable token aborts the whole plan — the following well-formed step
is never executed (final position stays neutral, no hardware write at
all), although running that well-formed step alone would move channel 0
to 8000. -/
theorem c3_counterexample :
    (runPlan NEUTRAL [[some 6000, none, some 5000, some 5000],
                      [some 8000, some 6000, some 5000, some 5000]])
      = (NEUTRAL, [])
    ∧ (runPlan NEUTRAL [[some 8000, some 6000, some 5000, some 5000]]).1.getD 0 0 = 8000 := by
  refine ⟨rfl, ?_⟩
  decide

/-- Claim C3 (amended): a step whose token count differs from the
channel count is skipped and execution continues with the next step; but
a step containing an unparseable token raises an error caught only
outside the step loop, so it produces no hardware write and aborts all
remaining steps of the plan. -/
theorem c3_malformed_step (pos : List Int) (step : List (Option Int))
    (rest : List (List (Option Int))) :
    (parseStep step = none → runPlan pos (step :: rest) = (pos, []))
    ∧ (∀ values : List Int,
        parseStep step = some values → values.length ≠ servo_channels.length →
        runPlan pos (step :: rest) = runPlan pos rest) := by
  constructor
  · intro h
    simp [runPlan, h]
  · intro values h hlen
    simp [runPlan, h, hlen]

/-- Witness for the amended C3: an unparseable single-token step aborts
with no effect; a parseable step of wrong arity is skipped. -/
theorem c3_malformed_step_witness :
    runPlan NEUTRAL [[none]] = (NEUTRAL, [])
    ∧ runPlan NEUTRAL [[some 1]] = runPlan NEUTRAL [] := by
  constructor
  · exact (c3_malformed_step NEUTRAL [none] []).1 rfl
  · exact (c3_malformed_step NEUTRAL [some 1] []).2 [1] rfl (by norm_num [servo_channels])

end RobotArm
